import Mathlib

/-! A verification development for the periodic job scheduler (job.go)

The Go package is embedded shallowly:

* the library calls and channel operations the code performs are recorded, in
  program order, as values of `Effect`;
* what the Go runtime hands out (channels, tickers) are identifiers drawn from
  an explicit `Runtime` state;
* Go `int` and `time.Duration` are integers wrapped to 64 bits (the `int` of a
  64-bit target);
* the `parent *Job` back pointer of a `JobState` is passed as an explicit
  argument to the methods that dereference it;
* a callback is a function from its context to the status it returns; it is
  taken to return;
* scheduler goroutine and execution loops run together in a transition system
  (`step`, `exec`) in which a send on an unbuffered channel completes only
  together with a receive on the same channel.

Library behaviour the code relies on is modelled where the code meets it:
`time.NewTicker` panics on a duration that is not positive, `ioutil.ReadFile`
returns the bytes read so far along with a read error, and `fmt` formats by the
rules of `doPrintf` for the verbs d, s and v.
-/

namespace JobSched

/-! ## Machine integers -/

/-- Two's complement wrap of an integer to the signed 64-bit range. -/
def wrapInt64 (x : Int) : Int :=
  (x + 9223372036854775808) % 18446744073709551616 - 9223372036854775808

/-- Range of a Go int on a 64-bit target (and of int64, time.Duration). -/
def inInt64 (x : Int) : Prop := -9223372036854775808 ≤ x ∧ x < 9223372036854775808

instance (x : Int) : Decidable (inInt64 x) := by unfold inInt64; infer_instance

/-- The constant time.Second, in nanoseconds. -/
def Second : Int := 1000000000

/-- The expression time.Duration(everySeconds) * time.Second: a conversion of
int to int64 followed by a wrapping int64 multiplication. -/
def durationOfSeconds (everySeconds : Int) : Int :=
  wrapInt64 (wrapInt64 everySeconds * Second)

/-! ## The fragment of fmt used by the package -/

/-- Operand of a formatting call. -/
inductive Arg
  | int (n : Int)
  | str (s : String)
  | time (t : Nat)
  deriving DecidableEq, Repr

/-- Go type name of an operand, as reflect prints it. -/
def Arg.typeName : Arg → Option (List Char)
  | .int _ => some "int".toList
  | .str _ => some "string".toList
  | .time _ => none

/-- Rendering of an operand under the verb v; none for time values, whose
layout is not modelled. -/
def Arg.fmtV : Arg → Option (List Char)
  | .int n => some (toString n).toList
  | .str s => some s.toList
  | .time _ => none

/-- The function printArg of fmt for the verbs d, s and v on int and string
operands; a verb that does not fit the operand prints as %!verb(type=value). -/
def printArg (x : Arg) (verb : Char) : Option (List Char) :=
  match x, verb with
  | .int n, 'd' => some (toString n).toList
  | .int n, 'v' => some (toString n).toList
  | .str s, 's' => some s.toList
  | .str s, 'v' => some s.toList
  | .int n, 's' => some ("%!s(int=".toList ++ (toString n).toList ++ [')'])
  | .str s, 'd' => some ("%!d(string=".toList ++ s.toList ++ [')'])
  | _, _ => none

/-- Text appended after the format is exhausted when operands are left over:
nothing when none is left, otherwise %!(EXTRA type=value, type=value). -/
def extraArgs : List Arg → Option (List Char)
  | [] => some []
  | a => do
      let items ← a.mapM (fun x => do
        let ty ← x.typeName
        let v ← x.fmtV
        pure (ty ++ ['='] ++ v))
      pure ("%!(EXTRA ".toList ++ ", ".toList.intercalate items ++ [')'])

/-- The loop doPrintf of fmt over the format, for verbs written directly after
the percent sign (no flags, width, precision or argument index): text is copied,
a doubled percent sign prints one percent sign and takes no operand, a verb
takes the next operand, a verb with no operand left prints %!verb(MISSING), a
percent sign that ends the format prints %!(NOVERB). The result is none when
the format leaves this fragment. -/
def doPrintf : List Char → List Arg → Option (List Char)
  | [], a => extraArgs a
  | ['%'], a => do
      let r ← extraArgs a
      pure ("%!(NOVERB)".toList ++ r)
  | '%' :: verb :: rest, a =>
      if verb = '%' then do
        let r ← doPrintf rest a
        pure ('%' :: r)
      else if verb = 'd' ∨ verb = 's' ∨ verb = 'v' then
        match a with
        | [] => do
            let r ← doPrintf rest []
            pure ("%!".toList ++ [verb] ++ "(MISSING)".toList ++ r)
        | x :: a1 => do
            let s ← printArg x verb
            let r ← doPrintf rest a1
            pure (s ++ r)
      else none
  | c :: rest, a => do
      let r ← doPrintf rest a
      pure (c :: r)

/-- The function fmt.Sprintf on the modelled fragment. -/
def Sprintf (format : String) (a : List Arg) : Option String :=
  (doPrintf format.toList a).map String.mk

/-! ## Effects -/

/-- Identifier of a channel made by make(chan int). -/
abbrev Chan := Nat
/-- Identifier of a ticker made by time.NewTicker. -/
abbrev Ticker := Nat
/-- Identifier of a database handle. -/
abbrev DB := Nat

/-- The observable actions of the package, one constructor per library call or
channel operation that appears in job.go. -/
inductive Effect
  /-- fmt.Printf(format, a...) -/
  | printf (format : String) (a : List Arg)
  /-- fmt.Println(a...) -/
  | println (a : List Arg)
  /-- t.fn(&JobFuncCtx...) of the task called name; status is what it returned -/
  | call (name : String) (db : DB) (status : Int)
  /-- case <-t.sigstop -/
  | recvStop (ch : Chan) (v : Int)
  /-- case e := <-t.ticker.C -/
  | recvTick (tk : Ticker) (e : Nat)
  /-- go t.jobs[index].funcHandler() -/
  | go (index : Nat)
  /-- signal.Notify(c, os.Interrupt) on c := make(chan os.Signal, 1) -/
  | notify
  /-- receive from c: <-c -/
  | recvInterrupt
  /-- z.sigstop <- v -/
  | send (ch : Chan) (v : Int)
  /-- t.db.Close() -/
  | dbClose (db : DB)
  /-- flag.Parse() -/
  | flagParse
  /-- ioutil.ReadFile(filename) -/
  | readFile (filename : String)
  /-- os.OpenFile(path, O_RDWR|O_CREATE|O_APPEND, 0666) -/
  | openFile (path : String)
  /-- f.Close() -/
  | closeFile (path : String)
  /-- log.SetOutput(io.MultiWriter(os.Stdout, f)) -/
  | logSetOutput (path : String)
  /-- log.Print, log.Println and log.Fatalf, by their text -/
  | logPrint (text : String)
  /-- sqlx.Open(driver, dsn) -/
  | sqlOpen (driver : String) (dsn : String)
  /-- db.Ping() -/
  | ping (db : DB)
  deriving DecidableEq, Repr

/-- Is the effect a callback invocation. -/
def Effect.isCall : Effect → Bool
  | .call _ _ _ => true
  | _ => false

/-- Is the effect the consumption of an event by the select of funcHandler. -/
def Effect.isRecv : Effect → Bool
  | .recvStop _ _ => true
  | .recvTick _ _ => true
  | _ => false

/-- Is the effect the receipt of a stop signal. -/
def Effect.isRecvStop : Effect → Bool
  | .recvStop _ _ => true
  | _ => false

/-- Is the effect the receipt of a timer tick. -/
def Effect.isRecvTick : Effect → Bool
  | .recvTick _ _ => true
  | _ => false

/-- Is the effect the launch of an execution loop. -/
def Effect.isGo : Effect → Bool
  | .go _ => true
  | _ => false

/-- Is the effect a send on a stop-signal queue. -/
def Effect.isSend : Effect → Bool
  | .send _ _ => true
  | _ => false

/-- Is the effect the wait on the interrupt channel (its creation included). -/
def Effect.isInterruptWait : Effect → Bool
  | .notify => true
  | .recvInterrupt => true
  | _ => false

/-- Is the effect the closing of the database handle. -/
def Effect.isDbClose : Effect → Bool
  | .dbClose _ => true
  | _ => false

/-! ## Data model -/

/-- The type JobLog: the text the call writes to standard output, none when the
format leaves the modelled fragment of fmt. -/
abbrev JobLog := String → List Arg → Option String

/-- The struct JobFuncCtx. -/
structure JobFuncCtx where
  DB : DB
  Log : JobLog
  lastRun : Int

/-- The type JobFunc; the returned status is the only result the scheduler
could observe. -/
abbrev JobFunc := JobFuncCtx → Int

/-- The struct JobState, without the parent pointer. -/
structure JobState where
  name : String
  fn : JobFunc
  runs : Int
  stopped : Bool
  everySeconds : Int
  ticker : Ticker
  sigstop : Chan

/-- The struct Job. -/
structure Job where
  name : String
  db : DB
  jobs : List JobState

/-- The part of the Go runtime AddJob draws on: how many channels have been
made, and the periods in nanoseconds of the tickers created so far. -/
structure Runtime where
  chans : Nat
  tickers : List Int

/-! ## Logging -/

/-- The method jobLog: the text written to standard output.
h := fmt.Sprintf("[job/log] %s => ", t.name); fmt.Printf(h+s+" \n", params...) -/
def JobState.jobLog (t : JobState) (s : String) (params : List Arg) : Option String := do
  let h ← Sprintf "[job/log] %s => " [.str t.name]
  Sprintf (h ++ s ++ " \n") params

/-! ## The execution loop -/

/-- An event the select of funcHandler receives; a list of events is the order
in which the select takes them. -/
inductive Event
  | stop (v : Int)
  | tick (e : Nat)
  deriving DecidableEq, Repr

/-- Is the event a timer tick. -/
def Event.isTick : Event → Bool
  | .tick _ => true
  | .stop _ => false

/-- Is the event a stop signal. -/
def Event.isStop : Event → Bool
  | .stop _ => true
  | .tick _ => false

/-- The execution context built for one invocation. -/
def JobState.ctx (t : JobState) (parent : Job) : JobFuncCtx :=
  { DB := parent.db, Log := t.jobLog, lastRun := 0 }

/-- What one run of funcHandler leaves behind: the task state, the effects in
order, and whether the function returned (false: it is blocked in the select,
the events being used up). -/
structure LoopResult where
  state : JobState
  trace : List Effect
  exited : Bool

/-- The for/select of funcHandler over the events it receives. No statement of
the loop assigns a field of t, so the task state goes through unchanged. -/
def JobState.loop (t : JobState) (parent : Job) : List Event → LoopResult
  | [] => { state := t, trace := [], exited := false }
  | .stop v :: _ =>
      { state := t
        trace := [.recvStop t.sigstop v, .printf "[job] stopping\n" []]
        exited := true }
  | .tick e :: rest =>
      let r := t.loop parent rest
      { state := r.state
        trace := [.recvTick t.ticker e,
                  .println [.str "[job] tick starting at", .time e],
                  .call t.name parent.db (t.fn (t.ctx parent)),
                  .println [.str "[job] tick ended at", .time e]] ++ r.trace
        exited := r.exited }

/-- The method funcHandler. -/
def JobState.funcHandler (t : JobState) (parent : Job) (events : List Event) : LoopResult :=
  let r := t.loop parent events
  { state := r.state
    trace := [.printf "[job/start] init %s/%s \x7bevery %d s\x7d\n"
                [.str parent.name, .str t.name, .int t.everySeconds],
              .call t.name parent.db (t.fn (t.ctx parent))] ++ r.trace
    exited := r.exited }

/-- Number of callback invocations in a trace. -/
def calls (tr : List Effect) : Nat := tr.countP Effect.isCall

/-- Number of ticks that precede the first stop signal. -/
def ticksBeforeStop (events : List Event) : Nat := (events.takeWhile Event.isTick).length

/-! ## Registration -/

/-- The expression make(chan int): a channel no earlier call returned. -/
def Runtime.makeChan (rt : Runtime) : Chan × Runtime :=
  (rt.chans, { rt with chans := rt.chans + 1 })

/-- The function time.NewTicker(d): it panics when d is not positive (none),
otherwise it returns a new ticker of period d. -/
def Runtime.NewTicker (rt : Runtime) (d : Int) : Option (Ticker × Runtime) :=
  if d ≤ 0 then none
  else some (rt.tickers.length, { rt with tickers := rt.tickers ++ [d] })

/-- The method AddJob. The operands of the composite literal are evaluated
before append runs, so a panic of NewTicker leaves t.jobs as it was; none
stands for that panic. -/
def Job.AddJob (t : Job) (rt : Runtime) (name : String) (everySeconds : Int) (f : JobFunc) :
    Option (Job × Runtime) :=
  let (ch, rt1) := rt.makeChan
  match rt1.NewTicker (durationOfSeconds everySeconds) with
  | none => none
  | some (tk, rt2) =>
      some ({ t with
              jobs := t.jobs ++ [{ name := name
                                   fn := f
                                   runs := 0
                                   sigstop := ch
                                   stopped := false
                                   everySeconds := everySeconds
                                   ticker := tk }] }, rt2)

/-! ## Bulk stop and the run entry point -/

/-- The range loop of StopAll from index i on. -/
def stopFrom : Nat → List JobState → List Effect
  | _, [] => []
  | i, z :: zs =>
      [.printf "[job/stop] signal to %d\n" [.int i], .send z.sigstop 1] ++ stopFrom (i + 1) zs

/-- The method StopAll: its effects in program order. -/
def Job.StopAll (t : Job) : List Effect := stopFrom 0 t.jobs

/-- The method RunLock: its effects in program order when nothing blocks for
ever. The deferred t.db.Close() runs when the function returns, on either path. -/
def Job.RunLock (t : Job) : List Effect :=
  [.printf "[job] \"%s\" started\n" [.str t.name],
   .printf "[job] (%d) jobs registered\n" [.int t.jobs.length]] ++
  (if t.jobs.length = 0 then
    [.println [.str "[job] no jobs in queue, stopping"]]
  else
    (List.range t.jobs.length).map Effect.go ++
    [.notify, .recvInterrupt, .println [.str "[job] interrupt"]] ++
    t.StopAll ++
    [.println [.str "[job] all stopped"]]) ++
  [.dbClose t.db]

/-- The channels a trace sends on, in order. -/
def sendTargets : List Effect → List Chan
  | [] => []
  | .send ch _ :: tr => ch :: sendTargets tr
  | _ :: tr => sendTargets tr

/-- The loops a trace launches, in order. -/
def launched : List Effect → List Nat
  | [] => []
  | .go i :: tr => i :: launched tr
  | _ :: tr => launched tr

/-- Schedulers obtained from one with no task by calls of AddJob, with the
runtime after the last call and the channels those calls made, in order.
Between two calls other code may make channels and tickers of its own. -/
inductive Registered : Job → Runtime → List Chan → Prop
  | new (name : String) (db : DB) (rt : Runtime) :
      Registered { name := name, db := db, jobs := [] } rt []
  | other {t : Job} {rt : Runtime} {made : List Chan} (rt1 : Runtime) :
      Registered t rt made → rt.chans ≤ rt1.chans → Registered t rt1 made
  | add {t t1 : Job} {rt rt1 : Runtime} {made : List Chan}
      (name : String) (everySeconds : Int) (f : JobFunc) :
      Registered t rt made → t.AddJob rt name everySeconds f = some (t1, rt1) →
      Registered t1 rt1 (made ++ [rt.makeChan.1])

/-! ## Scheduler and loops running together -/

/-- Where the execution loop of a task is: not launched, inside a callback
invocation, blocked in its select, or returned. -/
inductive LoopState
  | idle
  | busy
  | waiting
  | stopped
  deriving DecidableEq, Repr

/-- State of the running system: what the scheduler goroutine has still to do,
and the state of the loop of each task, by index. -/
structure Sys where
  main : List Effect
  loops : List LoopState
  deriving DecidableEq, Repr

/-- One transition of the system. -/
inductive Label
  /-- the scheduler goroutine performs its next effect, one that needs no partner -/
  | main
  /-- the interrupt is delivered while the scheduler goroutine waits on c -/
  | interrupt
  /-- the callback of task i returns and its loop blocks in the select -/
  | done (i : Nat)
  /-- the loop of task i receives a tick and invokes the callback -/
  | tick (i : Nat)
  /-- the pending send of the scheduler goroutine meets the receive of loop i -/
  | stop (i : Nat)
  deriving DecidableEq, Repr

/-- The transition function; none when the transition is not enabled. A send
on an unbuffered channel completes only together with a receive on the same
channel, and only a loop blocked in its select receives. -/
def step (t : Job) (s : Sys) : Label → Option Sys
  | .main =>
      match s.main with
      | [] => none
      | .send _ _ :: _ => none
      | .recvInterrupt :: _ => none
      | .go i :: k =>
          if s.loops[i]? = some .idle then
            some { main := k, loops := s.loops.set i .busy }
          else none
      | _ :: k => some { s with main := k }
  | .interrupt =>
      match s.main with
      | .recvInterrupt :: k => some { s with main := k }
      | _ => none
  | .done i =>
      if s.loops[i]? = some .busy then some { s with loops := s.loops.set i .waiting }
      else none
  | .tick i =>
      if s.loops[i]? = some .waiting then some { s with loops := s.loops.set i .busy }
      else none
  | .stop i =>
      match s.main with
      | .send ch _ :: k =>
          if s.loops[i]? = some .waiting ∧ (t.jobs[i]?).map JobState.sigstop = some ch then
            some { main := k, loops := s.loops.set i .stopped }
          else none
      | _ => none

/-- A run of the system along a sequence of transitions. -/
def exec (t : Job) : List Label → Sys → Option Sys
  | [], s => some s
  | l :: ls, s =>
      match step t s l with
      | none => none
      | some s1 => exec t ls s1

/-- The transitions by which StopAll gets through n tasks from index i on: the
print of the scheduler goroutine, then the send meeting the receive of the loop. -/
def stopRun : Nat → Nat → List Label
  | _, 0 => []
  | i, n + 1 => .main :: .stop i :: stopRun (i + 1) n

/-- The loops that a run stops, in order. -/
def stopsOf : List Label → List Nat
  | [] => []
  | .stop i :: ls => i :: stopsOf ls
  | _ :: ls => stopsOf ls

/-! ## Construction -/

/-- The struct ConfigDatabase. -/
structure ConfigDatabase where
  Schema : String
  Host : String
  Port : Int
  Account : String
  Password : String
  SessionKeys : List (List Nat)
  deriving DecidableEq, Repr

/-- The zero value of ConfigDatabase (var config ConfigDatabase). -/
def ConfigDatabase.zero : ConfigDatabase :=
  { Schema := "", Host := "", Port := 0, Account := "", Password := "", SessionKeys := [] }

/-- What ioutil.ReadFile returned: the bytes and the error, if any. When the
file cannot be opened the bytes are nil; when a read fails after the file was
opened, the bytes read up to then come back along with the error. -/
structure ReadResult where
  data : List Nat
  err : Option String

/-- The world NewJob runs in: the outcome of each library call it makes. -/
structure Env where
  /-- flag.Parse(): the exit code when the command line makes it exit -/
  flagExit : Option Int
  /-- ioutil.ReadFile -/
  ReadFile : String → ReadResult
  /-- json.Unmarshal(data, in): the decoded descriptor or the error -/
  Unmarshal : List Nat → ConfigDatabase → Except String ConfigDatabase
  /-- os.OpenFile: the error, if any -/
  OpenFile : String → Option String
  /-- sqlx.Open(driver, dsn) -/
  sqlOpen : String → String → Except String DB
  /-- db.Ping(): the error, if any -/
  Ping : DB → Option String

/-- The function ParseConfig: the returned boolean, the descriptor behind the
pointer afterwards, and the effects. The error of ReadFile is dropped (file, _).
After a decoding error the descriptor is shown as it was; NewJob does not read
it on that path. -/
def ParseConfig (env : Env) (filename : String) (cfg : ConfigDatabase) :
    Bool × ConfigDatabase × List Effect :=
  let file := (env.ReadFile filename).data
  match env.Unmarshal file cfg with
  | .error err =>
      (false, cfg, [.readFile filename, .printf "[file] read error: %v\n" [.str err]])
  | .ok c => (true, c, [.readFile filename])

/-- How a call ends: it returns a value, or the process exits inside it. -/
inductive Outcome (α : Type)
  | returned (v : α)
  | exited (code : Int)

/-- The data source name NewJob formats with the verbs s and d, which insert
their operands as they are (Sprintf_dataSourceName below). -/
def dataSourceName (config : ConfigDatabase) : String :=
  config.Account ++ ":" ++ config.Password ++ "@tcp(" ++ config.Host ++ ":" ++
    toString config.Port ++ ")/" ++ config.Schema ++
    "?charset=utf8mb4&collation=utf8mb4_unicode_ci"

/-- The function NewJob: its outcome (none is the nil scheduler) and effects.
The empty test of flagConfig does nothing; the deferred f.Close() runs on every
return that follows it, and log.Fatalf exits the process. -/
def NewJob (env : Env) (name : String) : Outcome (Option Job) × List Effect :=
  match env.flagExit with
  | some code => (.exited code, [.flagParse])
  | none =>
    match ParseConfig env "./db.json" ConfigDatabase.zero with
    | (false, _, tr) =>
        (.returned none,
          [.flagParse] ++ tr ++ [.println [.str "[init] Failed to read or parse db.json"]])
    | (true, config, tr) =>
      match env.OpenFile (name ++ ".log") with
      | some errLog =>
          (.exited 1,
            [.flagParse] ++ tr ++
            [.openFile (name ++ ".log"), .logPrint ("error opening file: " ++ errLog)])
      | none =>
        let pre : List Effect :=
          [.flagParse] ++ tr ++
          [.openFile (name ++ ".log"), .logSetOutput (name ++ ".log"),
           .sqlOpen "mysql" (dataSourceName config)]
        match env.sqlOpen "mysql" (dataSourceName config) with
        | .error err =>
            (.returned none,
              pre ++ [.logPrint ("[init] Failed to connect to database" ++ err),
                      .closeFile (name ++ ".log")])
        | .ok db =>
          match env.Ping db with
          | some err =>
              (.returned none,
                pre ++ [.ping db,
                        .println [.str "[init] Failed to connect to database", .str err],
                        .logPrint ("[init] Failed to connect to database" ++ err),
                        .closeFile (name ++ ".log")])
          | none =>
              (.returned (some { db := db, name := name, jobs := [] }),
                pre ++ [.ping db, .closeFile (name ++ ".log")])

/-- Does the effect open the log file or touch the database. -/
def Effect.isLogOrDb : Effect → Bool
  | .openFile _ => true
  | .logSetOutput _ => true
  | .sqlOpen _ _ => true
  | .ping _ => true
  | _ => false

/-! ## Sample values -/

/-- A scheduler with no task. -/
def emptyJob : Job := { name := "sched", db := 0, jobs := [] }

/-- A runtime in which nothing has been made yet. -/
def emptyRuntime : Runtime := { chans := 0, tickers := [] }

/-- A task named a that runs every 3 seconds. -/
def sampleTask : JobState :=
  { name := "a", fn := fun _ => 1, runs := 0, stopped := false, everySeconds := 3,
    ticker := 0, sigstop := 0 }

/-- The scheduler emptyJob after AddJob("a", 3, f). -/
def sampleJob : Job := { name := "sched", db := 0, jobs := [sampleTask] }

/-- The runtime after sampleTask was registered. -/
def sampleRuntime : Runtime := { chans := 1, tickers := [3000000000] }

/-- A second task of the same name, every 5 seconds. -/
def sampleTask2 : JobState :=
  { name := "a", fn := fun _ => 0, runs := 0, stopped := false, everySeconds := 5,
    ticker := 1, sigstop := 1 }

/-- The scheduler sampleJob after AddJob("a", 5, g). -/
def sampleJob2 : Job := { name := "sched", db := 0, jobs := [sampleTask, sampleTask2] }

/-- The runtime after both tasks were registered. -/
def sampleRuntime2 : Runtime := { chans := 2, tickers := [3000000000, 5000000000] }

/-- A decoder that agrees with json.Unmarshal on the two inputs used below: the
document made of an opening and a closing brace leaves the descriptor as it is,
and no bytes at all are an error. -/
def sampleUnmarshal : List Nat → ConfigDatabase → Except String ConfigDatabase
  | [123, 125], c => .ok c
  | _, _ => .error "unexpected end of JSON input"

/-- A world in which the command line parses, the log file opens, the database
answers, and reading the configuration file gives r. -/
def sampleEnv (r : ReadResult) : Env :=
  { flagExit := none
    ReadFile := fun _ => r
    Unmarshal := sampleUnmarshal
    OpenFile := fun _ => none
    sqlOpen := fun _ _ => .ok 7
    Ping := fun _ => none }

/-- A read that fails after the whole document was read: the bytes of an empty
JSON object come back along with the error. -/
def lateReadError : ReadResult := { data := [123, 125], err := some "input/output error" }

/-- A read of a file that cannot be opened. -/
def openError : ReadResult := { data := [], err := some "no such file or directory" }

/-! ## Lemmas on the execution loop -/

theorem loop_head_recv (t : JobState) (parent : Job) (events : List Event) :
    (t.loop parent events).trace.takeWhile (fun e => !e.isRecv) = [] := by
  cases events with
  | nil => simp [JobState.loop]
  | cons ev rest => cases ev <;> simp [JobState.loop, Effect.isRecv]

theorem loop_calls (t : JobState) (parent : Job) (events : List Event) :
    calls (t.loop parent events).trace = ticksBeforeStop events := by
  induction events with
  | nil => simp [JobState.loop, calls, ticksBeforeStop]
  | cons ev rest ih =>
    cases ev with
    | stop v => simp [JobState.loop, calls, ticksBeforeStop, Effect.isCall, Event.isTick]
    | tick e =>
      simp only [calls, ticksBeforeStop] at ih ⊢
      simp [JobState.loop, Effect.isCall, Event.isTick, List.countP_cons, ih]

theorem loop_recvTicks (t : JobState) (parent : Job) (events : List Event) :
    (t.loop parent events).trace.countP Effect.isRecvTick = ticksBeforeStop events := by
  induction events with
  | nil => simp [JobState.loop, ticksBeforeStop]
  | cons ev rest ih =>
    cases ev with
    | stop v => simp [JobState.loop, ticksBeforeStop, Effect.isRecvTick, Event.isTick]
    | tick e =>
      simp only [ticksBeforeStop] at ih ⊢
      simp [JobState.loop, Effect.isRecvTick, Event.isTick, List.countP_cons, ih]

theorem loop_exited (t : JobState) (parent : Job) (events : List Event) :
    (t.loop parent events).exited = events.any Event.isStop := by
  induction events with
  | nil => simp [JobState.loop]
  | cons ev rest ih =>
    cases ev with
    | stop v => simp [JobState.loop, Event.isStop]
    | tick e => simp [JobState.loop, Event.isStop, ih]

theorem loop_after_stop (t : JobState) (parent : Job) (events : List Event) :
    calls ((t.loop parent events).trace.dropWhile (fun e => !e.isRecvStop)) = 0 := by
  induction events with
  | nil => simp [JobState.loop, calls]
  | cons ev rest ih =>
    cases ev with
    | stop v => simp [JobState.loop, calls, Effect.isRecvStop, Effect.isCall]
    | tick e =>
      simp only [calls] at ih ⊢
      simpa [JobState.loop, Effect.isRecvStop, List.dropWhile_cons] using ih

theorem loop_ignores_after_stop (t : JobState) (parent : Job) (pre post : List Event)
    (v : Int) : t.loop parent (pre ++ .stop v :: post) = t.loop parent (pre ++ [.stop v]) := by
  induction pre with
  | nil => simp [JobState.loop]
  | cons ev rest ih =>
    cases ev with
    | stop w => simp [JobState.loop]
    | tick e => simp [JobState.loop, ih]

theorem loop_state (z : JobState) (parent : Job) (events : List Event) :
    (z.loop parent events).state = z := by
  induction events with
  | nil => rfl
  | cons ev rest ih =>
    cases ev with
    | stop v => rfl
    | tick e => simpa [JobState.loop] using ih

theorem funcHandler_calls (t : JobState) (parent : Job) (events : List Event) :
    calls (t.funcHandler parent events).trace = 1 + ticksBeforeStop events := by
  have h := loop_calls t parent events
  simp only [calls] at h ⊢
  simp [JobState.funcHandler, List.countP_cons, Effect.isCall, h, Nat.add_comm]

theorem recvStop_channel (z : JobState) (parent : Job) (events : List Event) (ch : Chan)
    (v : Int) (h : Effect.recvStop ch v ∈ (z.loop parent events).trace) : ch = z.sigstop := by
  induction events with
  | nil => simp [JobState.loop] at h
  | cons ev rest ih =>
    cases ev with
    | stop w =>
      simp [JobState.loop] at h
      exact h.1
    | tick e =>
      simp [JobState.loop] at h
      exact ih h

/-! ## Lemmas on traces -/

theorem sendTargets_append (a b : List Effect) :
    sendTargets (a ++ b) = sendTargets a ++ sendTargets b := by
  induction a with
  | nil => rfl
  | cons e tr ih => cases e <;> simp [sendTargets, ih]

theorem launched_append (a b : List Effect) :
    launched (a ++ b) = launched a ++ launched b := by
  induction a with
  | nil => rfl
  | cons e tr ih => cases e <;> simp [launched, ih]

theorem sendTargets_stopFrom (i : Nat) (zs : List JobState) :
    sendTargets (stopFrom i zs) = zs.map JobState.sigstop := by
  induction zs generalizing i with
  | nil => rfl
  | cons z zs ih => simp [stopFrom, sendTargets, ih]

theorem launched_stopFrom (i : Nat) (zs : List JobState) :
    launched (stopFrom i zs) = [] := by
  induction zs generalizing i with
  | nil => rfl
  | cons z zs ih => simp [stopFrom, launched, ih]

theorem countP_isSend_stopFrom (i : Nat) (zs : List JobState) :
    (stopFrom i zs).countP Effect.isSend = zs.length := by
  induction zs generalizing i with
  | nil => rfl
  | cons z zs ih => simp [stopFrom, List.countP_cons, Effect.isSend, ih]

theorem countP_isDbClose_stopFrom (i : Nat) (zs : List JobState) :
    (stopFrom i zs).countP Effect.isDbClose = 0 := by
  induction zs generalizing i with
  | nil => rfl
  | cons z zs ih => simp [stopFrom, List.countP_cons, Effect.isDbClose, ih]

theorem launched_map_go (l : List Nat) : launched (l.map Effect.go) = l := by
  induction l with
  | nil => rfl
  | cons i l ih => simp [launched, ih]

theorem sendTargets_map_go (l : List Nat) : sendTargets (l.map Effect.go) = [] := by
  induction l with
  | nil => rfl
  | cons i l ih => simp [sendTargets, ih]

theorem countP_isDbClose_map_go (l : List Nat) :
    (l.map Effect.go).countP Effect.isDbClose = 0 := by
  induction l with
  | nil => rfl
  | cons i l ih => simp [List.countP_cons, Effect.isDbClose, ih]

theorem send_mem_stopFrom (i : Nat) (zs : List JobState) (j : Nat) (z : JobState)
    (hz : zs[j]? = some z) : Effect.send z.sigstop 1 ∈ stopFrom i zs := by
  induction zs generalizing i j with
  | nil => simp at hz
  | cons y ys ih =>
    cases j with
    | zero =>
      simp at hz
      subst hz
      simp [stopFrom]
    | succ j =>
      simp at hz
      simp [stopFrom, ih (i + 1) j hz]

/-! ## Lemmas on registration -/

theorem durationOfSeconds_exact (e : Int) (h0 : 0 < e) (h1 : e ≤ 9223372036) :
    durationOfSeconds e = e * 1000000000 := by
  unfold durationOfSeconds wrapInt64 Second
  omega

theorem AddJob_eq_some {t t1 : Job} {rt rt1 : Runtime} {name : String} {e : Int} {f : JobFunc}
    (h : t.AddJob rt name e f = some (t1, rt1)) :
    0 < durationOfSeconds e
    ∧ t1 = { t with jobs := t.jobs ++ [{ name := name, fn := f, runs := 0, sigstop := rt.chans,
                                          stopped := false, everySeconds := e,
                                          ticker := rt.tickers.length }] }
    ∧ rt1 = { chans := rt.chans + 1, tickers := rt.tickers ++ [durationOfSeconds e] } := by
  unfold Job.AddJob Runtime.makeChan Runtime.NewTicker at h
  by_cases hd : durationOfSeconds e ≤ 0
  · simp [hd] at h
  · simp [hd] at h
    obtain ⟨h1, h2⟩ := h
    exact ⟨by omega, h1.symm, h2.symm⟩

theorem AddJob_of_pos (t : Job) (rt : Runtime) (name : String) (e : Int) (f : JobFunc)
    (h : 0 < durationOfSeconds e) :
    t.AddJob rt name e f =
      some ({ t with jobs := t.jobs ++ [{ name := name, fn := f, runs := 0, sigstop := rt.chans,
                                          stopped := false, everySeconds := e,
                                          ticker := rt.tickers.length }] },
            { chans := rt.chans + 1, tickers := rt.tickers ++ [durationOfSeconds e] }) := by
  unfold Job.AddJob Runtime.makeChan Runtime.NewTicker
  have hd : ¬ durationOfSeconds e ≤ 0 := by omega
  simp [hd]

theorem registered_inv {t : Job} {rt : Runtime} {made : List Chan} (h : Registered t rt made) :
    t.jobs.map JobState.sigstop = made ∧ (∀ c ∈ made, c < rt.chans) ∧ made.Nodup := by
  induction h with
  | new name db rt => simp
  | other rt1 _ hle ih =>
    refine ⟨ih.1, ?_, ih.2.2⟩
    intro c hc
    exact Nat.lt_of_lt_of_le (ih.2.1 c hc) hle
  | @add t t1 rt rt1 made name e f _ hadd ih =>
    obtain ⟨_, ht1, hrt1⟩ := AddJob_eq_some hadd
    subst ht1 hrt1
    refine ⟨?_, ?_, ?_⟩
    · simp [ih.1, Runtime.makeChan]
    · intro c hc
      simp [Runtime.makeChan] at hc
      rcases hc with hc | hc
      · exact Nat.lt_succ_of_lt (ih.2.1 c hc)
      · rw [hc]; exact Nat.lt_succ_self _
    · rw [List.nodup_append]
      refine ⟨ih.2.2, by simp, ?_⟩
      simp [Runtime.makeChan]
      intro hc
      exact Nat.lt_irrefl _ (ih.2.1 _ hc)

theorem sampleJob_registered : Registered sampleJob sampleRuntime [0] :=
  Registered.add "a" 3 (fun _ => 1) (Registered.new "sched" 0 emptyRuntime) rfl

theorem sampleJob2_registered : Registered sampleJob2 sampleRuntime2 [0, 1] :=
  Registered.add "a" 5 (fun _ => 0) sampleJob_registered rfl

/-! ## Lemmas on the run entry point -/

theorem RunLock_of_tasks (t : Job) (h : 1 ≤ t.jobs.length) :
    t.RunLock =
      ([.printf "[job] \"%s\" started\n" [.str t.name],
        .printf "[job] (%d) jobs registered\n" [.int t.jobs.length]]
        ++ (List.range t.jobs.length).map Effect.go ++ [.notify])
      ++ .recvInterrupt :: (.println [.str "[job] interrupt"] :: t.StopAll
        ++ [.println [.str "[job] all stopped"], .dbClose t.db]) := by
  have hne : ¬ t.jobs.length = 0 := by omega
  simp [Job.RunLock, hne]

theorem RunLock_parts (t : Job) (pre post : List Effect)
    (hpre : pre = [.printf "[job] \"%s\" started\n" [.str t.name],
                   .printf "[job] (%d) jobs registered\n" [.int t.jobs.length]]
                  ++ (List.range t.jobs.length).map Effect.go ++ [.notify])
    (hpost : post = .println [.str "[job] interrupt"] :: t.StopAll
                  ++ [.println [.str "[job] all stopped"], .dbClose t.db]) :
    launched pre = List.range t.jobs.length
    ∧ sendTargets pre = []
    ∧ pre.countP Effect.isDbClose = 0
    ∧ launched post = []
    ∧ sendTargets post = t.jobs.map JobState.sigstop
    ∧ post.countP Effect.isDbClose = 1 := by
  subst hpre hpost
  refine ⟨?_, ?_, ?_, ?_, ?_, ?_⟩
  · simp [launched_append, launched_map_go, launched]
  · simp [sendTargets_append, sendTargets_map_go, sendTargets]
  · rw [List.countP_append, List.countP_append, countP_isDbClose_map_go]; rfl
  · simp [launched_append, launched, Job.StopAll, launched_stopFrom]
  · simp [sendTargets_append, sendTargets, Job.StopAll, sendTargets_stopFrom]
  · rw [List.cons_append, List.countP_cons, List.countP_append, Job.StopAll,
      countP_isDbClose_stopFrom]
    rfl

/-! ## Lemmas on the running system -/

theorem set_keeps_stopped (loops : List LoopState) (i j : Nat) (st : LoopState)
    (hj : loops[j]? = some .stopped) (hi : loops[i]? ≠ some .stopped) :
    (loops.set i st)[j]? = some .stopped := by
  have hne : i ≠ j := by
    intro h; subst h; exact hi hj
  rw [List.getElem?_set_ne hne]
  exact hj

theorem step_keeps_blocked (t : Job) (hnd : (t.jobs.map JobState.sigstop).Nodup)
    (j : Nat) (z : JobState) (hz : t.jobs[j]? = some z) (s s1 : Sys) (l : Label)
    (hs : s.loops[j]? = some .stopped) (hm : Effect.send z.sigstop 1 ∈ s.main)
    (hstep : step t s l = some s1) :
    s1.loops[j]? = some .stopped ∧ Effect.send z.sigstop 1 ∈ s1.main := by
  cases l with
  | main =>
    cases hmain : s.main with
    | nil => simp [step, hmain] at hstep
    | cons e k =>
      rw [hmain] at hm
      cases e <;> simp [step, hmain] at hstep
      case go i =>
        obtain ⟨hi, rfl⟩ := hstep
        refine ⟨set_keeps_stopped _ _ _ _ hs (by rw [hi]; simp), ?_⟩
        simpa using hm
      all_goals
        subst hstep
        exact ⟨hs, by simpa using hm⟩
  | interrupt =>
    cases hmain : s.main with
    | nil => simp [step, hmain] at hstep
    | cons e k =>
      rw [hmain] at hm
      cases e <;> simp [step, hmain] at hstep
      subst hstep
      exact ⟨hs, by simpa using hm⟩
  | done i =>
    simp [step] at hstep
    obtain ⟨hi, rfl⟩ := hstep
    exact ⟨set_keeps_stopped _ _ _ _ hs (by rw [hi]; simp), hm⟩
  | tick i =>
    simp [step] at hstep
    obtain ⟨hi, rfl⟩ := hstep
    exact ⟨set_keeps_stopped _ _ _ _ hs (by rw [hi]; simp), hm⟩
  | stop i =>
    cases hmain : s.main with
    | nil => simp [step, hmain] at hstep
    | cons e k =>
      rw [hmain] at hm
      cases e <;> simp [step, hmain] at hstep
      case send ch v =>
        obtain ⟨⟨hi, zi, hzi, hch⟩, rfl⟩ := hstep
        have hij : i ≠ j := by
          intro h; subst h; rw [hs] at hi; simp at hi
        refine ⟨set_keeps_stopped _ _ _ _ hs (by rw [hi]; simp), ?_⟩
        simp only [List.mem_cons] at hm
        rcases hm with hm | hm
        · exfalso
          injection hm with h1 h2
          have hilt : i < t.jobs.length := by
            by_contra hcon
            rw [List.getElem?_eq_none (by omega)] at hzi
            simp at hzi
          have hjlt : j < t.jobs.length := by
            by_contra hcon
            rw [List.getElem?_eq_none (by omega)] at hz
            simp at hz
          have e1 : (t.jobs.map JobState.sigstop)[i]? = some ch := by
            rw [List.getElem?_map, hzi]; simp [hch]
          have e2 : (t.jobs.map JobState.sigstop)[j]? = some ch := by
            rw [List.getElem?_map, hz]; simp [h1]
          rcases Nat.lt_or_gt_of_ne hij with hlt | hgt
          · exact (List.nodup_iff_getElem?_ne_getElem?.1 hnd i j hlt (by simpa using hjlt))
              (e1.trans e2.symm)
          · exact (List.nodup_iff_getElem?_ne_getElem?.1 hnd j i hgt (by simpa using hilt))
              (e2.trans e1.symm)
        · exact hm

theorem exec_keeps_blocked (t : Job) (hnd : (t.jobs.map JobState.sigstop).Nodup)
    (j : Nat) (z : JobState) (hz : t.jobs[j]? = some z) (labels : List Label) (s s1 : Sys)
    (hs : s.loops[j]? = some .stopped) (hm : Effect.send z.sigstop 1 ∈ s.main)
    (hrun : exec t labels s = some s1) :
    s1.loops[j]? = some .stopped ∧ Effect.send z.sigstop 1 ∈ s1.main := by
  induction labels generalizing s with
  | nil =>
    simp [exec] at hrun
    subst hrun
    exact ⟨hs, hm⟩
  | cons l ls ih =>
    cases hstep : step t s l with
    | none => simp [exec, hstep] at hrun
    | some s2 =>
      simp [exec, hstep] at hrun
      obtain ⟨h1, h2⟩ := step_keeps_blocked t hnd j z hz s s2 l hs hm hstep
      exact ih s2 h1 h2 hrun

/-! ## Lemmas on formatting -/

theorem doPrintf_char (c : Char) (rest : List Char) (a : List Arg) (hc : c ≠ '%') :
    doPrintf (c :: rest) a = (doPrintf rest a).map (c :: ·) := by
  rw [doPrintf.eq_def]
  split
  · rename_i h; cases h
  · rename_i h; simp at h; exact absurd h.1 hc
  · rename_i h; simp at h; exact absurd h.1 hc
  · rename_i h
    simp at h
    obtain ⟨⟨rfl, rfl⟩, rfl⟩ := h
    generalize doPrintf _ _ = o
    cases o <;> rfl

theorem doPrintf_literal (lit rest : List Char) (a : List Arg) (h : '%' ∉ lit) :
    doPrintf (lit ++ rest) a = (doPrintf rest a).map (lit ++ ·) := by
  induction lit with
  | nil => simp
  | cons c lit ih =>
    simp only [List.mem_cons, not_or] at h
    rw [List.cons_append, doPrintf_char c _ a (fun hc => h.1 hc.symm), ih h.2]
    cases doPrintf rest a <;> rfl

theorem doPrintf_verb_s (s : String) (rest : List Char) (a : List Arg) :
    doPrintf ('%' :: 's' :: rest) (.str s :: a) = (doPrintf rest a).map (s.toList ++ ·) := by
  rw [doPrintf.eq_def]
  simp [printArg]
  cases doPrintf rest a <;> rfl

theorem Sprintf_header (name : String) :
    Sprintf "[job/log] %s => " [.str name] = some ("[job/log] " ++ name ++ " => ") := by
  have h1 : "[job/log] %s => ".toList = "[job/log] ".toList ++ ('%' :: 's' :: " => ".toList) := by
    decide
  unfold Sprintf
  rw [h1, doPrintf_literal _ _ _ (by decide), doPrintf_verb_s,
    show " => ".toList = " => ".toList ++ [] from by simp,
    doPrintf_literal _ _ _ (by decide)]
  simp [doPrintf, extraArgs]
  apply String.ext
  simp

/-- For a task whose name holds no percent sign, jobLog writes the bracketed
tag, the name as it is and the arrow, and after them the message formatted
with the operands of the caller. -/
theorem jobLog_plain_name (t : JobState) (s : String) (params : List Arg)
    (h : '%' ∉ t.name.toList) :
    t.jobLog s params
      = (Sprintf (s ++ " \n") params).map
          (fun out => "[job/log] " ++ t.name ++ " => " ++ out) := by
  unfold JobState.jobLog
  rw [Sprintf_header]
  simp only [Option.bind_eq_bind, Option.some_bind]
  unfold Sprintf
  have h2 : ("[job/log] " ++ t.name ++ " => " ++ s ++ " \n").toList
      = ("[job/log] ".toList ++ t.name.toList ++ " => ".toList) ++ (s ++ " \n").toList := by
    simp
  rw [h2, doPrintf_literal]
  · cases doPrintf (s ++ " \n").toList params with
    | none => rfl
    | some out =>
      simp
      apply String.ext
      simp
  · simp only [List.mem_append, not_or]
    exact ⟨⟨by decide, h⟩, by decide⟩

theorem doPrintf_verb_d (n : Int) (rest : List Char) (a : List Arg) :
    doPrintf ('%' :: 'd' :: rest) (.int n :: a) = (doPrintf rest a).map ((toString n).toList ++ ·) := by
  rw [doPrintf.eq_def]
  simp [printArg]
  cases doPrintf rest a <;> rfl

/-- The data source name is what fmt.Sprintf makes of the format of NewJob. -/
theorem Sprintf_dataSourceName (config : ConfigDatabase) :
    Sprintf "%s:%s@tcp(%s:%d)/%s?charset=utf8mb4&collation=utf8mb4_unicode_ci"
        [.str config.Account, .str config.Password, .str config.Host, .int config.Port,
         .str config.Schema]
      = some (dataSourceName config) := by
  have h1 : "%s:%s@tcp(%s:%d)/%s?charset=utf8mb4&collation=utf8mb4_unicode_ci".toList
      = '%' :: 's' :: (":".toList ++ '%' :: 's' :: ("@tcp(".toList ++ '%' :: 's' ::
          (":".toList ++ '%' :: 'd' :: (")/".toList ++ '%' :: 's' ::
            ("?charset=utf8mb4&collation=utf8mb4_unicode_ci".toList ++ []))))) := by
    decide
  unfold Sprintf
  rw [h1, doPrintf_verb_s, doPrintf_literal _ _ _ (by decide), doPrintf_verb_s,
    doPrintf_literal _ _ _ (by decide), doPrintf_verb_s, doPrintf_literal _ _ _ (by decide),
    doPrintf_verb_d, doPrintf_literal _ _ _ (by decide), doPrintf_verb_s,
    doPrintf_literal _ _ _ (by decide)]
  simp [doPrintf, extraArgs, dataSourceName]
  apply String.ext
  simp

/-! ## Lemmas on runs of StopAll -/

theorem sigstop_index (t : Job) (hnd : (t.jobs.map JobState.sigstop).Nodup) (i j : Nat)
    (zi zj : JobState) (hi : t.jobs[i]? = some zi) (hj : t.jobs[j]? = some zj)
    (hch : zi.sigstop = zj.sigstop) : i = j := by
  by_contra hij
  have hilt : i < t.jobs.length := by
    by_contra hcon
    rw [List.getElem?_eq_none (by omega)] at hi
    simp at hi
  have hjlt : j < t.jobs.length := by
    by_contra hcon
    rw [List.getElem?_eq_none (by omega)] at hj
    simp at hj
  have e1 : (t.jobs.map JobState.sigstop)[i]? = some zi.sigstop := by
    rw [List.getElem?_map, hi]; rfl
  have e2 : (t.jobs.map JobState.sigstop)[j]? = some zi.sigstop := by
    rw [List.getElem?_map, hj, hch]; rfl
  rcases Nat.lt_or_gt_of_ne hij with hlt | hgt
  · exact (List.nodup_iff_getElem?_ne_getElem?.1 hnd i j hlt (by simpa using hjlt))
      (e1.trans e2.symm)
  · exact (List.nodup_iff_getElem?_ne_getElem?.1 hnd j i hgt (by simpa using hilt))
      (e2.trans e1.symm)

theorem drop_cons_getElem? {α : Type} (l : List α) (i : Nat) (z : α) (zs : List α)
    (h : l.drop i = z :: zs) : l[i]? = some z ∧ l.drop (i + 1) = zs ∧ i < l.length := by
  have hlt : i < l.length := by
    by_contra hcon
    rw [List.drop_eq_nil_of_le (by omega)] at h
    cases h
  have h2 := List.drop_eq_getElem_cons hlt
  rw [h] at h2
  injection h2 with h3 h4
  refine ⟨?_, h4.symm, hlt⟩
  rw [List.getElem?_eq_getElem hlt, h3]

theorem take_set_succ {α : Type} (l : List α) (i : Nat) (a : α) (h : i < l.length) :
    (l.set i a).take (i + 1) = l.take i ++ [a] := by
  induction l generalizing i with
  | nil => simp at h
  | cons x xs ih =>
    cases i with
    | zero => simp
    | succ i =>
      simp at h
      simp [ih i h]

theorem exec_stopRun (t : Job) (zs : List JobState) :
    ∀ (i : Nat) (loops : List LoopState), t.jobs.drop i = zs →
      loops.length = t.jobs.length →
      (∀ j, i ≤ j → j < t.jobs.length → loops[j]? = some .waiting) →
      exec t (stopRun i zs.length) { main := stopFrom i zs, loops := loops }
        = some { main := [], loops := loops.take i ++ List.replicate zs.length .stopped } := by
  induction zs with
  | nil =>
    intro i loops hdrop hlen _
    have hle : t.jobs.length ≤ i := by
      by_contra hcon
      have := List.drop_eq_nil_iff.1 hdrop
      omega
    simp [stopRun, exec, stopFrom, List.take_of_length_le (by omega : loops.length ≤ i)]
  | cons z zs ih =>
    intro i loops hdrop hlen hwait
    obtain ⟨hz, hdrop1, hlt⟩ := drop_cons_getElem? t.jobs i z zs hdrop
    have hw := hwait i (Nat.le_refl i) hlt
    have h1 : exec t (stopRun i (z :: zs).length) { main := stopFrom i (z :: zs), loops := loops }
        = exec t (stopRun (i + 1) zs.length)
            { main := stopFrom (i + 1) zs, loops := loops.set i .stopped } := by
      simp [stopRun, exec, stopFrom, step, hw, hz]
    rw [h1, ih (i + 1) (loops.set i .stopped) hdrop1 (by simpa using hlen)]
    · congr 2
      have hil : i < loops.length := by omega
      rw [take_set_succ loops i .stopped hil, List.append_assoc]
      rfl
    · intro j hij hj
      rw [List.getElem?_set_ne (by omega)]
      exact hwait j (by omega) hj

theorem stops_in_order (t : Job) (hnd : (t.jobs.map JobState.sigstop).Nodup)
    (labels : List Label) :
    ∀ (s s1 : Sys) (i : Nat), exec t labels s = some s1 → s1.main = [] →
      (s.main = stopFrom i (t.jobs.drop i) →
        stopsOf labels = List.range' i (t.jobs.length - i))
      ∧ (∀ z, t.jobs[i]? = some z →
          s.main = .send z.sigstop 1 :: stopFrom (i + 1) (t.jobs.drop (i + 1)) →
          stopsOf labels = List.range' i (t.jobs.length - i)) := by
  induction labels with
  | nil =>
    intro s s1 i hrun hdone
    simp [exec] at hrun
    subst hrun
    constructor
    · intro hmain
      rw [hdone] at hmain
      cases hd : t.jobs.drop i with
      | nil =>
        have := List.drop_eq_nil_iff.1 hd
        simp [stopsOf, Nat.sub_eq_zero_of_le this]
      | cons z zs => rw [hd] at hmain; simp [stopFrom] at hmain
    · intro z _ hmain
      rw [hdone] at hmain
      cases hmain
  | cons l ls ih =>
    intro s s1 i hrun hdone
    cases hstep : step t s l with
    | none => simp [exec, hstep] at hrun
    | some s2 =>
      simp [exec, hstep] at hrun
      have ih2 := ih s2 s1
      constructor
      · intro hmain
        cases hd : t.jobs.drop i with
        | nil =>
          rw [hd] at hmain
          simp only [stopFrom] at hmain
          cases l <;> simp [step, hmain] at hstep
          case done j =>
            obtain ⟨_, rfl⟩ := hstep
            simpa [stopsOf] using (ih2 i hrun hdone).1 (by simp [hmain, hd, stopFrom])
          case tick j =>
            obtain ⟨_, rfl⟩ := hstep
            simpa [stopsOf] using (ih2 i hrun hdone).1 (by simp [hmain, hd, stopFrom])
        | cons z zs =>
          obtain ⟨hz, hdrop1, hlt⟩ := drop_cons_getElem? t.jobs i z zs hd
          rw [hd] at hmain
          simp only [stopFrom, List.cons_append, List.nil_append] at hmain
          cases l <;> simp [step, hmain] at hstep
          case main =>
            subst hstep
            simpa [stopsOf] using (ih2 i hrun hdone).2 z hz (by simp [hdrop1])
          case done j =>
            obtain ⟨_, rfl⟩ := hstep
            simpa [stopsOf] using (ih2 i hrun hdone).1 (by simp [hmain, hd, stopFrom])
          case tick j =>
            obtain ⟨_, rfl⟩ := hstep
            simpa [stopsOf] using (ih2 i hrun hdone).1 (by simp [hmain, hd, stopFrom])
      · intro z hz hmain
        have hlt : i < t.jobs.length := by
          by_contra hcon
          rw [List.getElem?_eq_none (by omega)] at hz
          simp at hz
        cases l <;> simp [step, hmain] at hstep
        case done j =>
          obtain ⟨_, rfl⟩ := hstep
          simpa [stopsOf] using (ih2 i hrun hdone).2 z hz (by simp [hmain])
        case tick j =>
          obtain ⟨_, rfl⟩ := hstep
          simpa [stopsOf] using (ih2 i hrun hdone).2 z hz (by simp [hmain])
        case stop j =>
          obtain ⟨⟨_, zj, hzj, hch⟩, rfl⟩ := hstep
          have hji : j = i := sigstop_index t hnd j i zj z hzj hz hch
          subst hji
          have h3 := (ih2 (j + 1) hrun hdone).1 (by simp)
          simp only [stopsOf, h3]
          have : t.jobs.length - j = (t.jobs.length - (j + 1)) + 1 := by omega
          rw [this, List.range'_succ]

/-! ## Lemmas on runs of RunLock -/

theorem set_not_stopped (loops : List LoopState) (i : Nat) (st : LoopState)
    (hst : st ≠ .stopped) (h : ∀ l ∈ loops, l ≠ LoopState.stopped) :
    ∀ l ∈ loops.set i st, l ≠ LoopState.stopped := by
  intro l hl
  rcases List.mem_or_eq_of_mem_set hl with h1 | h1
  · exact h l h1
  · rw [h1]; exact hst

theorem step_before_interrupt (t : Job) (post : List Effect) (s s1 : Sys) (l : Label)
    (a : List Effect) (hmain : s.main = a ++ .recvInterrupt :: post)
    (ha : sendTargets a = []) (hloops : ∀ x ∈ s.loops, x ≠ LoopState.stopped)
    (hl : l ≠ .interrupt) (hstep : step t s l = some s1) :
    (∃ a1, s1.main = a1 ++ .recvInterrupt :: post ∧ sendTargets a1 = [])
    ∧ ∀ x ∈ s1.loops, x ≠ LoopState.stopped := by
  cases l with
  | interrupt => exact absurd rfl hl
  | main =>
    cases a with
    | nil => simp [step, hmain] at hstep
    | cons e a1 =>
      simp only [List.cons_append] at hmain
      cases e <;> simp [step, hmain] at hstep
      case go i =>
        obtain ⟨_, rfl⟩ := hstep
        exact ⟨⟨a1, rfl, by simpa [sendTargets] using ha⟩,
          set_not_stopped _ _ _ (by decide) hloops⟩
      all_goals
        subst hstep
        exact ⟨⟨a1, rfl, by simpa [sendTargets] using ha⟩, hloops⟩
  | done i =>
    simp [step] at hstep
    obtain ⟨_, rfl⟩ := hstep
    exact ⟨⟨a, hmain, ha⟩, set_not_stopped _ _ _ (by decide) hloops⟩
  | tick i =>
    simp [step] at hstep
    obtain ⟨_, rfl⟩ := hstep
    exact ⟨⟨a, hmain, ha⟩, set_not_stopped _ _ _ (by decide) hloops⟩
  | stop i =>
    cases a with
    | nil => simp [step, hmain] at hstep
    | cons e a1 =>
      simp only [List.cons_append] at hmain
      cases e <;> simp [step, hmain] at hstep
      case send ch v => simp [sendTargets] at ha

theorem exec_before_interrupt (t : Job) (post : List Effect) (labels : List Label) :
    ∀ (s s1 : Sys) (a : List Effect), s.main = a ++ .recvInterrupt :: post →
      sendTargets a = [] → (∀ x ∈ s.loops, x ≠ LoopState.stopped) →
      Label.interrupt ∉ labels → exec t labels s = some s1 →
      (∃ a1, s1.main = a1 ++ .recvInterrupt :: post ∧ sendTargets a1 = [])
      ∧ ∀ x ∈ s1.loops, x ≠ LoopState.stopped := by
  induction labels with
  | nil =>
    intro s s1 a hmain ha hloops _ hrun
    simp [exec] at hrun
    subst hrun
    exact ⟨⟨a, hmain, ha⟩, hloops⟩
  | cons l ls ih =>
    intro s s1 a hmain ha hloops hno hrun
    simp only [List.mem_cons, not_or] at hno
    cases hstep : step t s l with
    | none => simp [exec, hstep] at hrun
    | some s2 =>
      simp [exec, hstep] at hrun
      obtain ⟨⟨a2, hm2, ha2⟩, hl2⟩ :=
        step_before_interrupt t post s s2 l a hmain ha hloops (fun h => hno.1 h.symm) hstep
      exact ih s2 s1 a2 hm2 ha2 hl2 hno.2 hrun

/-! ## The claims -/

/-- C1: for every task and every finite sequence of events received by funcHandler,
the callback is invoked exactly once before any event is consumed, then once
per tick received; the number of invocations is 1 plus the number of ticks that
precede the first stop signal; the loop exits exactly when a stop signal is
among the events; no invocation follows the receipt of the stop signal, and the
events after the first stop signal are never consumed. -/
theorem funcHandler_invocations (t : JobState) (parent : Job) (events : List Event) :
    calls ((t.funcHandler parent events).trace.takeWhile (fun e => !e.isRecv)) = 1
    ∧ (t.funcHandler parent events).trace.countP Effect.isRecvTick = ticksBeforeStop events
    ∧ calls (t.funcHandler parent events).trace = 1 + ticksBeforeStop events
    ∧ (t.funcHandler parent events).exited = events.any Event.isStop
    ∧ calls ((t.funcHandler parent events).trace.dropWhile (fun e => !e.isRecvStop)) = 0
    ∧ (∀ pre post v, events = pre ++ .stop v :: post →
        t.funcHandler parent events = t.funcHandler parent (pre ++ [.stop v])) := by
  refine ⟨?_, ?_, funcHandler_calls t parent events, ?_, ?_, ?_⟩
  · have h := loop_head_recv t parent events
    have h1 : (t.funcHandler parent events).trace.takeWhile (fun e => !e.isRecv)
        = [.printf "[job/start] init %s/%s \x7bevery %d s\x7d\n"
                [.str parent.name, .str t.name, .int t.everySeconds],
           .call t.name parent.db (t.fn (t.ctx parent))] := by
      simp only [JobState.funcHandler, List.cons_append, List.nil_append]
      rw [List.takeWhile_cons_of_pos (by rfl), List.takeWhile_cons_of_pos (by rfl), h]
    rw [h1]; rfl
  · have h := loop_recvTicks t parent events
    simp [JobState.funcHandler, List.countP_cons, Effect.isRecvTick, h]
  · simp [JobState.funcHandler, loop_exited]
  · have h := loop_after_stop t parent events
    simp only [calls] at h ⊢
    simpa [JobState.funcHandler, List.dropWhile_cons, Effect.isRecvStop] using h
  · intro pre post v he
    subst he
    simp [JobState.funcHandler, loop_ignores_after_stop]

/-- C2: for every scheduler built by K calls of AddJob, StopAll performs exactly
K sends; the channels it sends on are, in order, the channels made by the
successive calls of AddJob, which are pairwise different; the i-th of them is
the sigstop of task i, and it is the only channel on which the loop of task i
receives a stop signal. When every loop waits in its select the K sends
complete one after the other and leave every loop stopped, and every run in
which StopAll returns stops the loops 0 to K-1 in this order, each once. -/
theorem StopAll_sends (t : Job) (rt : Runtime) (made : List Chan) (h : Registered t rt made) :
    sendTargets t.StopAll = made
    ∧ t.StopAll.countP Effect.isSend = t.jobs.length
    ∧ made.length = t.jobs.length
    ∧ made.Nodup
    ∧ (∀ (i : Nat) (z : JobState), t.jobs[i]? = some z →
        made[i]? = some z.sigstop
        ∧ ∀ (parent : Job) (events : List Event) (ch : Chan) (v : Int),
            Effect.recvStop ch v ∈ (z.funcHandler parent events).trace → made[i]? = some ch)
    ∧ (∀ loops : List LoopState, loops.length = t.jobs.length →
        (∀ j, j < t.jobs.length → loops[j]? = some .waiting) →
        exec t (stopRun 0 t.jobs.length) { main := t.StopAll, loops := loops }
          = some { main := [], loops := List.replicate t.jobs.length .stopped })
    ∧ (∀ (loops : List LoopState) (labels : List Label) (s1 : Sys),
        exec t labels { main := t.StopAll, loops := loops } = some s1 → s1.main = [] →
        stopsOf labels = List.range t.jobs.length) := by
  obtain ⟨hmap, _, hnd⟩ := registered_inv h
  refine ⟨?_, ?_, ?_, hnd, ?_, ?_, ?_⟩
  · rw [Job.StopAll, sendTargets_stopFrom, hmap]
  · rw [Job.StopAll, countP_isSend_stopFrom]
  · rw [← hmap, List.length_map]
  · intro i z hz
    have hi : made[i]? = some z.sigstop := by
      rw [← hmap, List.getElem?_map, hz]; rfl
    refine ⟨hi, ?_⟩
    intro parent events ch v hmem
    have : Effect.recvStop ch v ∈ (z.loop parent events).trace := by
      simpa [JobState.funcHandler] using hmem
    rw [recvStop_channel z parent events ch v this]
    exact hi
  · intro loops hlen hwait
    have hrun := exec_stopRun t t.jobs 0 loops rfl hlen (fun j _ hj => hwait j hj)
    simpa [Job.StopAll] using hrun
  · intro loops labels s1 hrun hdone
    have hnd2 : (t.jobs.map JobState.sigstop).Nodup := by rw [hmap]; exact hnd
    have hord := (stops_in_order t hnd2 labels _ s1 0 hrun hdone).1 (by simp [Job.StopAll])
    rw [hord, List.range_eq_range']
    simp

/-- Witness of C2 on the scheduler with two tasks of the same name. -/
theorem StopAll_sends_witness :
    Registered sampleJob2 sampleRuntime2 [0, 1]
    ∧ (sendTargets sampleJob2.StopAll = [0, 1]
      ∧ sampleJob2.StopAll.countP Effect.isSend = sampleJob2.jobs.length
      ∧ [0, 1].length = sampleJob2.jobs.length
      ∧ [0, 1].Nodup
      ∧ (∀ (i : Nat) (z : JobState), sampleJob2.jobs[i]? = some z →
          [0, 1][i]? = some z.sigstop
          ∧ ∀ (parent : Job) (events : List Event) (ch : Chan) (v : Int),
              Effect.recvStop ch v ∈ (z.funcHandler parent events).trace →
                [0, 1][i]? = some ch)
      ∧ (∀ loops : List LoopState, loops.length = sampleJob2.jobs.length →
          (∀ j, j < sampleJob2.jobs.length → loops[j]? = some .waiting) →
          exec sampleJob2 (stopRun 0 sampleJob2.jobs.length)
              { main := sampleJob2.StopAll, loops := loops }
            = some { main := [], loops := List.replicate sampleJob2.jobs.length .stopped })
      ∧ (∀ (loops : List LoopState) (labels : List Label) (s1 : Sys),
          exec sampleJob2 labels { main := sampleJob2.StopAll, loops := loops } = some s1 →
          s1.main = [] → stopsOf labels = List.range sampleJob2.jobs.length)) :=
  ⟨sampleJob2_registered, StopAll_sends sampleJob2 sampleRuntime2 [0, 1] sampleJob2_registered⟩

/-- C3: for every scheduler whose task collection is empty, RunLock performs two
prints, the print of the empty queue and the deferred close of the database
handle, and nothing else: it launches no loop, does not wait on the interrupt
channel, sends no stop signal, and runs to its return by steps of the
scheduler goroutine alone. -/
theorem RunLock_no_tasks (t : Job) (h : t.jobs = []) :
    t.RunLock = [.printf "[job] \"%s\" started\n" [.str t.name],
                 .printf "[job] (%d) jobs registered\n" [.int 0],
                 .println [.str "[job] no jobs in queue, stopping"],
                 .dbClose t.db]
    ∧ launched t.RunLock = []
    ∧ t.RunLock.countP Effect.isInterruptWait = 0
    ∧ sendTargets t.RunLock = []
    ∧ t.RunLock.countP Effect.isSend = 0
    ∧ ∀ loops : List LoopState,
        exec t [.main, .main, .main, .main] { main := t.RunLock, loops := loops }
          = some { main := [], loops := loops } := by
  have hrun : t.RunLock = [.printf "[job] \"%s\" started\n" [.str t.name],
                 .printf "[job] (%d) jobs registered\n" [.int 0],
                 .println [.str "[job] no jobs in queue, stopping"],
                 .dbClose t.db] := by
    simp [Job.RunLock, h]
  rw [hrun]
  refine ⟨rfl, rfl, rfl, rfl, rfl, ?_⟩
  intro loops
  rfl

/-- Witness of C3 on the scheduler with no task. -/
theorem RunLock_no_tasks_witness :
    emptyJob.jobs = []
    ∧ (emptyJob.RunLock = [.printf "[job] \"%s\" started\n" [.str emptyJob.name],
                 .printf "[job] (%d) jobs registered\n" [.int 0],
                 .println [.str "[job] no jobs in queue, stopping"],
                 .dbClose emptyJob.db]
      ∧ launched emptyJob.RunLock = []
      ∧ emptyJob.RunLock.countP Effect.isInterruptWait = 0
      ∧ sendTargets emptyJob.RunLock = []
      ∧ emptyJob.RunLock.countP Effect.isSend = 0
      ∧ ∀ loops : List LoopState,
          exec emptyJob [.main, .main, .main, .main] { main := emptyJob.RunLock, loops := loops }
            = some { main := [], loops := loops }) :=
  ⟨rfl, RunLock_no_tasks emptyJob rfl⟩

/-- Counterexample to C4: the positive interval 9223372037 fits a 64-bit int, yet
AddJob panics inside NewTicker and appends nothing. -/
theorem AddJob_overflow_panics :
    (0 : Int) < 9223372037
    ∧ inInt64 9223372037
    ∧ (emptyJob.AddJob emptyRuntime "a" 9223372037 (fun _ => 0)).isNone = true := by
  decide

/-- C4 as amended: for every scheduler state and every (name, everySeconds, f)
with everySeconds > 0 whose duration, wrapped to 64 bits, is positive, AddJob
turns the task collection into the old one followed by exactly one new task
with that name, interval and callback, runs = 0 and stopped = false; the
earlier tasks and their order are unchanged, whatever the names already
registered. -/
theorem AddJob_appends (t : Job) (rt : Runtime) (name : String) (everySeconds : Int)
    (f : JobFunc) (hpos : 0 < everySeconds) (hdur : 0 < durationOfSeconds everySeconds) :
    ∃ (t1 : Job) (rt1 : Runtime) (z : JobState),
      t.AddJob rt name everySeconds f = some (t1, rt1)
      ∧ t1.jobs = t.jobs ++ [z]
      ∧ z.name = name ∧ z.everySeconds = everySeconds ∧ 0 < z.everySeconds ∧ z.fn = f
      ∧ z.runs = 0 ∧ z.stopped = false
      ∧ t1.jobs.length = t.jobs.length + 1
      ∧ t1.jobs.take t.jobs.length = t.jobs
      ∧ t1.name = t.name ∧ t1.db = t.db := by
  refine ⟨_, _, _, AddJob_of_pos t rt name everySeconds f hdur, rfl, rfl, rfl, hpos, rfl, rfl,
    rfl, ?_, ?_, rfl, rfl⟩
  · simp
  · simp

/-- Witness of the amended C4: a second task is registered under the name of
the first. -/
theorem AddJob_appends_witness :
    sampleTask.name = "a"
    ∧ ∃ (t1 : Job) (rt1 : Runtime) (z : JobState),
      sampleJob.AddJob sampleRuntime "a" 5 (fun _ => 0) = some (t1, rt1)
      ∧ t1.jobs = sampleJob.jobs ++ [z]
      ∧ z.name = "a" ∧ z.everySeconds = 5 ∧ 0 < z.everySeconds ∧ z.fn = (fun _ => 0)
      ∧ z.runs = 0 ∧ z.stopped = false
      ∧ t1.jobs.length = sampleJob.jobs.length + 1
      ∧ t1.jobs.take sampleJob.jobs.length = sampleJob.jobs
      ∧ t1.name = sampleJob.name ∧ t1.db = sampleJob.db :=
  ⟨rfl, AddJob_appends sampleJob sampleRuntime "a" 5 (fun _ => 0) (by decide) (by decide)⟩

/-- C5: for every scheduler with N >= 1 tasks, the effects of RunLock are, in
order: two prints, the launch of the loops 0 to N-1 each once, the wait for the
interrupt, and only after the interrupt is received the print, the effects of
StopAll, a print and the close of the database handle, which happens exactly
once and is the last effect. In every run of the system in which the interrupt
has not been delivered, RunLock still waits for it, every send of StopAll is
still to come and no loop has been stopped. -/
theorem RunLock_effects (t : Job) (h : 1 ≤ t.jobs.length) :
    (∃ pre post : List Effect,
        t.RunLock = pre ++ .recvInterrupt :: post
        ∧ pre = [.printf "[job] \"%s\" started\n" [.str t.name],
                 .printf "[job] (%d) jobs registered\n" [.int t.jobs.length]]
                ++ (List.range t.jobs.length).map Effect.go ++ [.notify]
        ∧ post = .println [.str "[job] interrupt"] :: t.StopAll
                ++ [.println [.str "[job] all stopped"], .dbClose t.db]
        ∧ launched pre = List.range t.jobs.length
        ∧ sendTargets pre = []
        ∧ pre.countP Effect.isDbClose = 0
        ∧ launched post = []
        ∧ sendTargets post = t.jobs.map JobState.sigstop)
    ∧ launched t.RunLock = List.range t.jobs.length
    ∧ t.RunLock.countP Effect.isDbClose = 1
    ∧ t.RunLock.getLast? = some (.dbClose t.db)
    ∧ (∀ (loops : List LoopState) (labels : List Label) (s1 : Sys),
        (∀ x ∈ loops, x ≠ LoopState.stopped) → Label.interrupt ∉ labels →
        exec t labels { main := t.RunLock, loops := loops } = some s1 →
        Effect.recvInterrupt ∈ s1.main
        ∧ sendTargets s1.main = t.jobs.map JobState.sigstop
        ∧ ∀ x ∈ s1.loops, x ≠ LoopState.stopped) := by
  have hrun := RunLock_of_tasks t h
  obtain ⟨h1, h2, h3, h4, h5, h6⟩ := RunLock_parts t _ _ rfl rfl
  refine ⟨⟨_, _, hrun, rfl, rfl, h1, h2, h3, h4, h5⟩, ?_, ?_, ?_, ?_⟩
  · rw [hrun, launched_append, h1, launched, h4]
    · simp
    · intro i; simp
  · rw [hrun, List.countP_append, h3, List.countP_cons, h6]
    rfl
  · unfold Job.RunLock
    exact List.getLast?_concat _
  · intro loops labels s1 hloops hno hexec
    obtain ⟨⟨a1, hm1, ha1⟩, hl1⟩ :=
      exec_before_interrupt t _ labels _ s1 _ hrun h2 hloops hno hexec
    refine ⟨?_, ?_, hl1⟩
    · rw [hm1]; simp
    · rw [hm1, sendTargets_append, ha1, List.nil_append, sendTargets, h5]
      intro ch v; simp

/-- Witness of C5 on the scheduler with two tasks. -/
theorem RunLock_effects_witness :
    1 ≤ sampleJob2.jobs.length
    ∧ ((∃ pre post : List Effect,
        sampleJob2.RunLock = pre ++ .recvInterrupt :: post
        ∧ pre = [.printf "[job] \"%s\" started\n" [.str sampleJob2.name],
                 .printf "[job] (%d) jobs registered\n" [.int sampleJob2.jobs.length]]
                ++ (List.range sampleJob2.jobs.length).map Effect.go ++ [.notify]
        ∧ post = .println [.str "[job] interrupt"] :: sampleJob2.StopAll
                ++ [.println [.str "[job] all stopped"], .dbClose sampleJob2.db]
        ∧ launched pre = List.range sampleJob2.jobs.length
        ∧ sendTargets pre = []
        ∧ pre.countP Effect.isDbClose = 0
        ∧ launched post = []
        ∧ sendTargets post = sampleJob2.jobs.map JobState.sigstop)
      ∧ launched sampleJob2.RunLock = List.range sampleJob2.jobs.length
      ∧ sampleJob2.RunLock.countP Effect.isDbClose = 1
      ∧ sampleJob2.RunLock.getLast? = some (.dbClose sampleJob2.db)
      ∧ (∀ (loops : List LoopState) (labels : List Label) (s1 : Sys),
          (∀ x ∈ loops, x ≠ LoopState.stopped) → Label.interrupt ∉ labels →
          exec sampleJob2 labels { main := sampleJob2.RunLock, loops := loops } = some s1 →
          Effect.recvInterrupt ∈ s1.main
          ∧ sendTargets s1.main = sampleJob2.jobs.map JobState.sigstop
          ∧ ∀ x ∈ s1.loops, x ≠ LoopState.stopped)) :=
  ⟨by decide, RunLock_effects sampleJob2 (by decide)⟩

/-- Counterexample to C6: a task registered by AddJob whose loop receives two
ticks has performed three invocations, and its runs counter is still 0. -/
theorem runs_not_counted :
    ∃ (t1 : Job) (rt1 : Runtime) (z : JobState),
      emptyJob.AddJob emptyRuntime "a" 3 (fun _ => 1) = some (t1, rt1)
      ∧ t1.jobs = [z]
      ∧ calls (z.funcHandler t1 [.tick 1, .tick 2]).trace = 3
      ∧ (z.funcHandler t1 [.tick 1, .tick 2]).state.runs = 0
      ∧ (z.funcHandler t1 [.tick 1, .tick 2]).state.runs ≠ 3 :=
  ⟨_, _, _, rfl, rfl, by decide, by decide, by decide⟩

/-- C6 as amended: for every task, the runs counter is 0 at registration and the
execution loop never changes it: after the loop has performed its k invocations
(k = 1 + the ticks before the first stop signal, the cold start included), runs
is still 0. -/
theorem runs_stays_zero (t t1 : Job) (rt rt1 : Runtime) (name : String) (everySeconds : Int)
    (f : JobFunc) (h : t.AddJob rt name everySeconds f = some (t1, rt1)) :
    ∃ z : JobState, t1.jobs.getLast? = some z ∧ z.runs = 0
      ∧ ∀ (parent : Job) (events : List Event),
          (z.funcHandler parent events).state.runs = 0
          ∧ calls (z.funcHandler parent events).trace = 1 + ticksBeforeStop events := by
  obtain ⟨_, ht1, _⟩ := AddJob_eq_some h
  subst ht1
  refine ⟨_, List.getLast?_concat _, rfl, ?_⟩
  intro parent events
  refine ⟨?_, funcHandler_calls _ parent events⟩
  show ((JobState.loop _ parent events).state).runs = 0
  rw [loop_state]

/-- Witness of the amended C6 on the registration of the second sample task. -/
theorem runs_stays_zero_witness :
    sampleJob.AddJob sampleRuntime "a" 5 (fun _ => 0) = some (sampleJob2, sampleRuntime2)
    ∧ ∃ z : JobState, sampleJob2.jobs.getLast? = some z ∧ z.runs = 0
      ∧ ∀ (parent : Job) (events : List Event),
          (z.funcHandler parent events).state.runs = 0
          ∧ calls (z.funcHandler parent events).trace = 1 + ticksBeforeStop events :=
  ⟨rfl, runs_stays_zero sampleJob sampleJob2 sampleRuntime sampleRuntime2 "a" 5 (fun _ => 0) rfl⟩

/-- C7 at a failing input: for the task named %d, the call jobLog("n=%d", 7)
writes a line in which the name is replaced by the operand 7 and the message
has lost its operand; the line does not begin with the tag followed by the
name, although the message alone formats to n=7. -/
theorem jobLog_percent_in_name :
    ({ sampleTask with name := "%d" } : JobState).jobLog "n=%d" [.int 7]
      = some "[job/log] 7 => n=%!d(MISSING) \n"
    ∧ ¬ ("[job/log] %d => ".toList <+: "[job/log] 7 => n=%!d(MISSING) \n".toList)
    ∧ Sprintf "n=%d \n" [.int 7] = some "n=7 \n" := by
  decide

/-- C8 at a failing input: the claim says that ParseConfig returns false and
NewJob returns the nil scheduler, without opening the log file or touching the
database, whenever the configuration file is unreadable. Here the read of the
file fails with an error after the bytes of a decodable document were read;
the code drops that error, ParseConfig returns true, and NewJob opens the log
file, pings the database and returns a scheduler. -/
theorem read_error_dropped :
    ((sampleEnv lateReadError).ReadFile "./db.json").err ≠ none
    ∧ (ParseConfig (sampleEnv lateReadError) "./db.json" ConfigDatabase.zero).1 = true
    ∧ (∃ j : Job, (NewJob (sampleEnv lateReadError) "x").1 = .returned (some j))
    ∧ Effect.openFile "x.log" ∈ (NewJob (sampleEnv lateReadError) "x").2
    ∧ Effect.ping 7 ∈ (NewJob (sampleEnv lateReadError) "x").2 := by
  refine ⟨by decide, by decide, ⟨_, rfl⟩, by decide, by decide⟩

/-- The paths on which the code does reject the configuration: whenever NewJob
reaches the read of the configuration file, if the read returned no bytes (as
when the file cannot be opened) or returned bytes that are not decodable as
JSON into the connection descriptor, then ParseConfig returns false and NewJob
returns the nil scheduler without opening the log file and without any attempt
to open or ping the database. The decoder is any one that rejects the empty
input, as json.Unmarshal does. -/
theorem NewJob_config_failure (env : Env) (name : String)
    (hflag : env.flagExit = none)
    (hjson : ∀ c : ConfigDatabase, ∃ e, env.Unmarshal [] c = .error e)
    (h : (env.ReadFile "./db.json").data = []
          ∨ ∃ e, env.Unmarshal (env.ReadFile "./db.json").data ConfigDatabase.zero = .error e) :
    (ParseConfig env "./db.json" ConfigDatabase.zero).1 = false
    ∧ (NewJob env name).1 = .returned none
    ∧ (NewJob env name).2.all (fun e => !e.isLogOrDb) = true := by
  have herr : ∃ e, env.Unmarshal (env.ReadFile "./db.json").data ConfigDatabase.zero
      = .error e := by
    rcases h with h | h
    · rw [h]; exact hjson _
    · exact h
  obtain ⟨e, he⟩ := herr
  have hp : ParseConfig env "./db.json" ConfigDatabase.zero
      = (false, ConfigDatabase.zero,
          [.readFile "./db.json", .printf "[file] read error: %v\n" [.str e]]) := by
    simp [ParseConfig, he]
  refine ⟨by rw [hp], ?_, ?_⟩
  · simp [NewJob, hflag, hp]
  · simp [NewJob, hflag, hp, Effect.isLogOrDb]

/-- The rejecting path at a concrete world: the configuration file cannot be
opened. -/
theorem NewJob_config_failure_witness :
    ((sampleEnv openError).ReadFile "./db.json").data = []
    ∧ (ParseConfig (sampleEnv openError) "./db.json" ConfigDatabase.zero).1 = false
    ∧ (NewJob (sampleEnv openError) "x").1 = .returned none
    ∧ (NewJob (sampleEnv openError) "x").2.all (fun e => !e.isLogOrDb) = true :=
  ⟨rfl, NewJob_config_failure (sampleEnv openError) "x" rfl (fun _ => ⟨_, rfl⟩) (Or.inl rfl)⟩

/-- Counterexample to C9: for the positive interval 9223372037, which fits a
64-bit int, the product with time.Second wraps to a negative duration, differs
from the interval times 10^9, and NewTicker panics on it. -/
theorem duration_overflows :
    (0 : Int) < 9223372037
    ∧ inInt64 9223372037
    ∧ durationOfSeconds 9223372037 = -9223372036709551616
    ∧ durationOfSeconds 9223372037 ≠ 9223372037 * 1000000000
    ∧ ¬ (0 < durationOfSeconds 9223372037)
    ∧ emptyRuntime.NewTicker (durationOfSeconds 9223372037) = none := by
  refine ⟨by decide, by decide, by decide, by decide, by decide, rfl⟩

/-- C9 as amended: for every intervalSeconds with 0 < intervalSeconds <= 9223372036
passed to AddJob, the duration everySeconds * time.Second computed in 64-bit
signed arithmetic is positive and equal to intervalSeconds * 10^9, AddJob does
not panic, and the ticker of the new task has that period. -/
theorem duration_of_interval (everySeconds : Int) (hpos : 0 < everySeconds)
    (hfit : everySeconds ≤ 9223372036) :
    durationOfSeconds everySeconds = everySeconds * 1000000000
    ∧ 0 < durationOfSeconds everySeconds
    ∧ ∀ (t : Job) (rt : Runtime) (name : String) (f : JobFunc),
        ∃ (t1 : Job) (rt1 : Runtime) (z : JobState),
          t.AddJob rt name everySeconds f = some (t1, rt1)
          ∧ t1.jobs.getLast? = some z
          ∧ rt1.tickers[z.ticker]? = some (everySeconds * 1000000000) := by
  have hd := durationOfSeconds_exact everySeconds hpos hfit
  have hp : 0 < durationOfSeconds everySeconds := by rw [hd]; omega
  refine ⟨hd, hp, ?_⟩
  intro t rt name f
  refine ⟨_, _, _, AddJob_of_pos t rt name everySeconds f hp, List.getLast?_concat _, ?_⟩
  simp [hd]

/-- Witness of the amended C9 at the largest interval that fits. -/
theorem duration_of_interval_witness :
    durationOfSeconds 9223372036 = 9223372036 * 1000000000
    ∧ 0 < durationOfSeconds 9223372036
    ∧ ∀ (t : Job) (rt : Runtime) (name : String) (f : JobFunc),
        ∃ (t1 : Job) (rt1 : Runtime) (z : JobState),
          t.AddJob rt name 9223372036 f = some (t1, rt1)
          ∧ t1.jobs.getLast? = some z
          ∧ rt1.tickers[z.ticker]? = some (9223372036 * 1000000000) :=
  duration_of_interval 9223372036 (by decide) (by decide)

/-- C10: for every scheduler built by AddJob in which the loop of some task j has
received a stop signal and returned, a further call of StopAll never returns:
in every state the system reaches, whatever the transitions taken, the send on
the sigstop of task j is still pending in the scheduler goroutine and the loop
of task j is still stopped, so no transition completes that send. -/
theorem StopAll_never_returns (t : Job) (rt : Runtime) (made : List Chan)
    (hreg : Registered t rt made) (loops : List LoopState) (j : Nat) (z : JobState)
    (hz : t.jobs[j]? = some z) (hstopped : loops[j]? = some .stopped)
    (labels : List Label) (s1 : Sys)
    (hrun : exec t labels { main := t.StopAll, loops := loops } = some s1) :
    s1.main ≠ [] ∧ Effect.send z.sigstop 1 ∈ s1.main ∧ s1.loops[j]? = some .stopped := by
  have hnd : (t.jobs.map JobState.sigstop).Nodup := by
    obtain ⟨h1, _, h3⟩ := registered_inv hreg
    rw [h1]; exact h3
  obtain ⟨h1, h2⟩ := exec_keeps_blocked t hnd j z hz labels _ s1 hstopped
    (send_mem_stopFrom 0 t.jobs j z hz) hrun
  exact ⟨List.ne_nil_of_mem h2, h2, h1⟩

/-- Witness of C10: the second of two tasks has stopped, the first still waits;
StopAll stops the first and then hangs on the send to the second. -/
theorem StopAll_never_returns_witness :
    exec sampleJob2 [.main, .stop 0, .main]
        { main := sampleJob2.StopAll, loops := [.waiting, .stopped] }
      = some { main := [.send 1 1], loops := [.stopped, .stopped] }
    ∧ (([.send 1 1] : List Effect) ≠ []
      ∧ Effect.send sampleTask2.sigstop 1 ∈ ([.send 1 1] : List Effect)
      ∧ ([.stopped, .stopped] : List LoopState)[1]? = some .stopped) :=
  ⟨rfl, StopAll_never_returns sampleJob2 sampleRuntime2 [0, 1] sampleJob2_registered
    [.waiting, .stopped] 1 sampleTask2 rfl rfl [.main, .stop 0, .main]
    { main := [.send 1 1], loops := [.stopped, .stopped] } rfl⟩

/-- With both loops waiting in their select, the same call of StopAll returns:
each send meets its receiver. -/
theorem StopAll_returns_when_waiting :
    exec sampleJob2 [.main, .stop 0, .main, .stop 1]
        { main := sampleJob2.StopAll, loops := [.waiting, .waiting] }
      = some { main := [], loops := [.stopped, .stopped] } := by
  rfl

/-- A complete run of RunLock on the scheduler with two tasks: both loops are
launched and finish their cold start, the interrupt arrives, both loops are
stopped, the database handle is closed and RunLock returns. -/
theorem RunLock_sample_run :
    exec sampleJob2
        [.main, .main, .main, .main, .done 0, .done 1, .tick 0, .done 0, .main, .interrupt,
         .main, .main, .stop 0, .main, .stop 1, .main, .main]
        { main := sampleJob2.RunLock, loops := [.idle, .idle] }
      = some { main := [], loops := [.stopped, .stopped] } := by
  rfl

end JobSched
